import Mathlib

/-!
Verification of the Oracle dashboard's synthetic data generators and risk
analytics (`src/app.py`) against its specification.

The Python source is embedded shallowly:
* real-valued quantities are modelled as exact rationals (`ℚ`), with the one
  irrational operation (`std`, a square root) living in `ℝ`;
* the random sources (`np.random.normal`, `np.random.uniform`,
  `np.random.randint`) are passed in as explicit draw streams, so every
  definition is a pure function of its draws;
* pandas `NaN` results (e.g. `std()` of fewer than two observations) are
  modelled as `Option.none`, and the IEEE rule that `NaN > 0` is false becomes
  the `none` branch of the corresponding guard;
* timestamps are modelled at the generator's own granularity (whole hours) as
  integers.
-/

namespace OracleDash

/-- The two simulated trading agents of the dashboard. -/
inductive Agent where
  | AI : Agent
  | RL : Agent
deriving DecidableEq, Repr

/-- One row of the performance DataFrame built by
`generate_sample_performance_data` (`src/app.py`, lines 79–94). -/
structure PerformanceSample where
  timestamp : ℤ
  agent : Agent
  balance_usdt : ℚ
  roi_eff : ℚ
  trade_count : ℕ
deriving DecidableEq, Repr

/-- Running balance of one agent: the loop body `balance *= (1 + change)`
(`src/app.py`, lines 72–77) multiplies before recording, so the row at date
`k` holds `10000 * ∏ (1 + draws j)` over `j ≤ k`. -/
def balanceAt (draws : ℕ → ℚ) : ℕ → ℚ
  | 0 => 10000 * (1 + draws 0)
  | k + 1 => balanceAt draws k * (1 + draws (k + 1))

/-- `generate_sample_performance_data` (`src/app.py`, lines 61–96) as a
function of its random draws. The grid `pd.date_range(now - days, now,
freq='H')` has `24*days + 1` hourly instants, modelled as the integers
`now - 24*days + k` for `k < 24*days + 1`; for each instant the loop appends
one AI row and one RL row, with `roi_eff` recomputed from the balance and the
fixed initial 10000. -/
def generate_sample_performance_data (now : ℤ) (days : ℕ)
    (aiDraws rlDraws : ℕ → ℚ) (aiTrades rlTrades : ℕ → ℕ) :
    List PerformanceSample :=
  (List.range (24 * days + 1)).flatMap (fun k =>
    [ { timestamp := now - 24 * days + k, agent := .AI,
        balance_usdt := balanceAt aiDraws k,
        roi_eff := (balanceAt aiDraws k - 10000) / 10000 * 100,
        trade_count := aiTrades k },
      { timestamp := now - 24 * days + k, agent := .RL,
        balance_usdt := balanceAt rlDraws k,
        roi_eff := (balanceAt rlDraws k - 10000) / 10000 * 100,
        trade_count := rlTrades k } ])

/-- The DataFrame filter `df[df['agent'] == a]` used throughout `src/app.py`
(e.g. lines 226–227, 419–420). -/
def agentRows (a : Agent) (df : List PerformanceSample) :
    List PerformanceSample :=
  df.filter (fun s => decide (s.agent = a))

/-- `Series.pct_change().dropna()` applied to a balance series (`src/app.py`,
lines 422–423): the single-step relative returns `balance[t]/balance[t-1] - 1`,
one per consecutive pair; the leading `NaN` that `pct_change` puts at index 0
is removed by `dropna`. -/
def pctChange (bs : List ℚ) : List ℚ :=
  List.zipWith (fun prev cur => cur / prev - 1) bs bs.tail

/-- `Series.mean()`: the arithmetic mean of the observations. -/
def sampleMean (xs : List ℚ) : ℚ := xs.sum / xs.length

/-- The unbiased sample variance underlying `Series.std()` (pandas default
`ddof=1`): sum of squared deviations from the mean over `n - 1`. -/
def sampleVar (xs : List ℚ) : ℚ :=
  (xs.map (fun x => (x - sampleMean xs) ^ 2)).sum / ((xs.length : ℚ) - 1)

/-- `Series.std()` with pandas default `ddof=1`: `NaN` — modelled as `none` —
when there are fewer than two observations, otherwise the square root of the
unbiased sample variance. -/
noncomputable def stdO (xs : List ℚ) : Option ℝ :=
  if 2 ≤ xs.length then some (Real.sqrt (sampleVar xs)) else none

/-- The Sharpe-ratio expression of `src/app.py` lines 430 and 441:
`returns.mean() / returns.std() if returns.std() > 0 else 0`. The IEEE
comparison `NaN > 0` is false, so the `none` (NaN) branch takes the else
value 0. -/
noncomputable def sharpe (xs : List ℚ) : ℝ :=
  match stdO xs with
  | none => 0
  | some s => if 0 < s then (sampleMean xs : ℝ) / s else 0

/-- The volatility metric `returns.std() * 100` (`src/app.py`, lines 429,
440); `NaN * 100` is `NaN`, so `none` propagates. -/
noncomputable def volatilityO (xs : List ℚ) : Option ℝ :=
  (stdO xs).map (fun s => s * 100)

/-- `Series.quantile(0.05)` with pandas' default linear interpolation: with
the observations sorted ascending and `h = 0.05 * (n - 1)`, interpolate
between the entries at `⌊h⌋` and `⌊h⌋ + 1`. -/
def quantile05 (xs : List ℚ) : ℚ :=
  let s := xs.mergeSort (fun a b => decide (a ≤ b))
  let h : ℚ := ((s.length : ℚ) - 1) / 20
  let lo : ℕ := ⌊h⌋.toNat
  s.getD lo 0 + (h - lo) * (s.getD (lo + 1) (s.getD lo 0) - s.getD lo 0)

/-- The VaR(5%) metric: `returns.quantile(0.05) * 100` is computed and shown
only under `if len(returns) > 20` (`src/app.py`, lines 434–436, 445–447);
otherwise the metric is absent (`none`). -/
def value_at_risk (xs : List ℚ) : Option ℚ :=
  if 20 < xs.length then some (quantile05 xs * 100) else none

/-- Helper for `Series.expanding().max()`: running maximum of the remaining
entries, seeded with the maximum `m` of the entries already passed. -/
def runningMaxAux (m : ℚ) : List ℚ → List ℚ
  | [] => []
  | b :: rest => max m b :: runningMaxAux (max m b) rest

/-- `Series.expanding().max()` (`src/app.py`, lines 229 and 232): at each
index, the maximum of the prefix ending there. -/
def runningMax : List ℚ → List ℚ
  | [] => []
  | b :: rest => b :: runningMaxAux b rest

/-- The drawdown series `(balance - peak) / peak * 100` of
`create_risk_analysis_chart` (`src/app.py`, lines 229–233), where `peak` is
the expanding maximum of the balance series. -/
def drawdownSeries (bs : List ℚ) : List ℚ :=
  List.zipWith (fun b p => (b - p) / p * 100) bs (runningMax bs)

/-- The specification's `runningMax(balance[0..t])`: the maximum of the
prefix of the series up to and including index `t`. -/
def prefixMax (bs : List ℚ) (t : ℕ) : ℚ :=
  (bs.take (t + 1)).foldl max (bs.getD 0 0)

/-- The RiskMetrics record of the Risk Analysis page: volatility (`NaN`
modelled as `none`), the guarded Sharpe ratio, the optional VaR(5%), and the
drawdown series. -/
structure RiskMetrics where
  volatility : Option ℝ
  sharpe_ratio : ℝ
  value_at_risk_5pct : Option ℚ
  drawdown : List ℚ

/-- The risk metrics computed from one agent's balance series in `main`
(`src/app.py`, lines 417–453) together with the drawdown series of
`create_risk_analysis_chart` (lines 226–233). The `df.empty` guards (lines
222 and 417) keep an empty series away from the statistics; on an empty
series this composite yields the empty or absent value in every field. -/
noncomputable def riskMetrics (bs : List ℚ) : RiskMetrics :=
  { volatility := volatilityO (pctChange bs)
    sharpe_ratio := sharpe (pctChange bs)
    value_at_risk_5pct := value_at_risk (pctChange bs)
    drawdown := drawdownSeries bs }

/-- The five instrument identifiers of `load_market_data`
(`src/app.py`, line 28). -/
inductive Coin where
  | bitcoin | ethereum | binancecoin | cardano | solana
deriving DecidableEq, Repr

/-- The instrument list `['bitcoin', 'ethereum', 'binancecoin', 'cardano',
'solana']`, in source order. -/
def coinList : List Coin := [.bitcoin, .ethereum, .binancecoin, .cardano, .solana]

/-- The hard-coded base prices `[45000, 3200, 320, 0.45, 95]` of
`generate_sample_market_data` (`src/app.py`, line 50), paired with the symbol
list by position. -/
def basePrice : Coin → ℚ
  | .bitcoin => 45000
  | .ethereum => 3200
  | .binancecoin => 320
  | .cardano => 9 / 20
  | .solana => 95

/-- One entry of the returned price mapping: `{price, change_24h}`. -/
structure PricePoint where
  price : ℚ
  change_24h : ℚ
deriving DecidableEq, Repr

/-- One JSON object `data[symbol]` of the price API: the `usd` field (whose
absence raises `KeyError` at `data[symbol]['usd']`) and the optional
`usd_24h_change` field, defaulted to 0 by `.get` (`src/app.py`,
lines 38–39). -/
structure ApiEntry where
  usd? : Option ℚ
  usd_24h_change? : Option ℚ
deriving DecidableEq, Repr

/-- One decoded HTTP response: the status code and whether the body contains
the symbol's key (`src/app.py`, lines 34–36). -/
structure HttpResponse where
  status_code : ℕ
  data? : Option ApiEntry
deriving DecidableEq, Repr

/-- Outcome of `requests.get` plus `.json()` for one symbol: either a raised
exception (connection error, timeout, malformed body) or a decoded
response. -/
inductive FetchOutcome where
  | exn : FetchOutcome
  | resp : HttpResponse → FetchOutcome
deriving DecidableEq, Repr

/-- `generate_sample_market_data` (`src/app.py`, lines 46–59) as a function of
its random draws: `u c` is the `np.random.uniform(0.95, 1.05)` factor applied
to the base price and `chg c` the `np.random.uniform(-10, 10)` 24h change.
One entry per symbol, in list order. -/
def generate_sample_market_data (u chg : Coin → ℚ) : List (Coin × PricePoint) :=
  coinList.map (fun c => (c, { price := basePrice c * u c, change_24h := chg c }))

/-- The body of the `try` block of `load_market_data` (`src/app.py`,
lines 28–41): scan the symbols in order, collecting `{price, change_24h}` for
every status-200 response whose body holds the symbol's key, silently
skipping the others; a raised exception — including the `KeyError` from a
missing `usd` field — aborts the whole scan (`Except.error`). -/
def fetchScan (f : Coin → FetchOutcome) :
    List Coin → Except Unit (List (Coin × PricePoint))
  | [] => .ok []
  | c :: rest =>
    match f c with
    | .exn => .error ()
    | .resp r =>
      if r.status_code = 200 then
        match r.data? with
        | none => fetchScan f rest
        | some e =>
          match e.usd? with
          | none => .error ()
          | some p =>
            match fetchScan f rest with
            | .error u => .error u
            | .ok ps =>
              .ok ((c,
                { price := p,
                  change_24h := e.usd_24h_change?.getD 0 }) :: ps)
      else fetchScan f rest

/-- `load_market_data` (`src/app.py`, lines 24–44): try the live fetch over
the whole batch; any raised exception replaces the entire result with the
synthetic snapshot. -/
def load_market_data (f : Coin → FetchOutcome) (u chg : Coin → ℚ) :
    List (Coin × PricePoint) :=
  match fetchScan f coinList with
  | .ok ps => ps
  | .error _ => generate_sample_market_data u chg

/-- Whether the fetch for one symbol raises an exception inside the `try`
block: a transport-level failure, or a 200 response whose body has the symbol
key but no `usd` field (`KeyError`). -/
def raisesAt (f : Coin → FetchOutcome) (c : Coin) : Bool :=
  match f c with
  | .exn => true
  | .resp r =>
    decide (r.status_code = 200) &&
      (match r.data? with
       | some e => e.usd?.isNone
       | none => false)

/-- Whether one symbol contributes a live entry: status 200, symbol key
present, `usd` field present. -/
def liveAt (f : Coin → FetchOutcome) (c : Coin) : Bool :=
  match f c with
  | .exn => false
  | .resp r =>
    decide (r.status_code = 200) &&
      (match r.data? with
       | some e => e.usd?.isSome
       | none => false)

/-- The live entry a symbol contributes when `liveAt` holds (placeholder
values otherwise). -/
def livePoint (f : Coin → FetchOutcome) (c : Coin) : PricePoint :=
  match f c with
  | .exn => { price := 0, change_24h := 0 }
  | .resp r =>
    match r.data? with
    | some e =>
      { price := e.usd?.getD 0, change_24h := e.usd_24h_change?.getD 0 }
    | none => { price := 0, change_24h := 0 }

/-- A fetch environment where bitcoin gets a 404 and the four other
instruments get well-formed 200 responses. -/
def fetchDemo : Coin → FetchOutcome
  | .bitcoin => .resp { status_code := 404, data? := none }
  | _ => .resp
      { status_code := 200,
        data? := some { usd? := some 7, usd_24h_change? := some 1 } }

lemma balanceAt_pos (draws : ℕ → ℚ) (hd : ∀ k, -1 < draws k) (n : ℕ) :
    0 < balanceAt draws n := by
  induction n with
  | zero =>
    have h1 : (0 : ℚ) < 1 + draws 0 := by have := hd 0; linarith
    have : (0 : ℚ) < 10000 := by norm_num
    simpa [balanceAt] using mul_pos this h1
  | succ k ih =>
    have h1 : (0 : ℚ) < 1 + draws (k + 1) := by have := hd (k + 1); linarith
    simpa [balanceAt] using mul_pos ih h1

lemma mem_generate_sample_performance_data
    {now : ℤ} {days : ℕ} {aiDraws rlDraws : ℕ → ℚ}
    {aiTrades rlTrades : ℕ → ℕ} {s : PerformanceSample}
    (hs : s ∈ generate_sample_performance_data now days aiDraws rlDraws
      aiTrades rlTrades) :
    ∃ k < 24 * days + 1,
      (s.agent = .AI ∧ s.balance_usdt = balanceAt aiDraws k ∧
        s.roi_eff = (balanceAt aiDraws k - 10000) / 10000 * 100) ∨
      (s.agent = .RL ∧ s.balance_usdt = balanceAt rlDraws k ∧
        s.roi_eff = (balanceAt rlDraws k - 10000) / 10000 * 100) := by
  simp only [generate_sample_performance_data, List.mem_flatMap,
    List.mem_range] at hs
  obtain ⟨k, hk, hmem⟩ := hs
  refine ⟨k, hk, ?_⟩
  simp only [List.mem_cons, List.mem_singleton] at hmem
  rcases hmem with h | h | h
  · subst h; exact Or.inl ⟨rfl, rfl, rfl⟩
  · subst h; exact Or.inr ⟨rfl, rfl, rfl⟩
  · cases h

/-- C1 counterexample: the claim quantifies over every sequence of draws from
the normal distribution, whose support is unbounded below; a draw of −2 (in
that support) makes the very first balance `10000 * (1 + (−2)) = −10000`, so
the generated series contains a sample with negative `balance_usdt`,
contradicting `balance_usdt > 0` at every step. -/
theorem c1_counterexample :
    (⟨0, .AI, -10000, -200, 0⟩ : PerformanceSample) ∈
      generate_sample_performance_data 0 0 (fun _ => -2) (fun _ => 0)
        (fun _ => 0) (fun _ => 0) ∧
    (⟨0, .AI, -10000, -200, 0⟩ : PerformanceSample).balance_usdt < 0 := by
  constructor
  · simp [generate_sample_performance_data, balanceAt]
    norm_num
  · norm_num

/-- C1 (amended): for every series produced by the performance generator, if
every return draw is strictly greater than −1 (which holds with overwhelming
probability for the agents' normal distributions, but not for the whole
support), then `balance_usdt > 0` at every step. -/
theorem c1_balance_positive (now : ℤ) (days : ℕ)
    (aiDraws rlDraws : ℕ → ℚ) (aiTrades rlTrades : ℕ → ℕ)
    (hai : ∀ k, -1 < aiDraws k) (hrl : ∀ k, -1 < rlDraws k) :
    ∀ s ∈ generate_sample_performance_data now days aiDraws rlDraws
      aiTrades rlTrades, 0 < s.balance_usdt := by
  intro s hs
  obtain ⟨k, -, h | h⟩ := mem_generate_sample_performance_data hs
  · rw [h.2.1]; exact balanceAt_pos aiDraws hai k
  · rw [h.2.1]; exact balanceAt_pos rlDraws hrl k

/-- Witness for C1 (amended) at the all-zero draw streams. -/
theorem c1_balance_positive_witness :
    0 < (⟨0, .AI, 10000, 0, 0⟩ : PerformanceSample).balance_usdt :=
  c1_balance_positive 0 0 (fun _ => 0) (fun _ => 0) (fun _ => 0) (fun _ => 0)
    (fun _ => by norm_num) (fun _ => by norm_num)
    ⟨0, .AI, 10000, 0, 0⟩
    (by simp [generate_sample_performance_data, balanceAt])

/-- C2: every sample emitted by the performance generator, for both agents and
every step, has `roi_eff` equal to `(balance_usdt - 10000) / 10000 * 100`
exactly, 10000 being the fixed initial balance. -/
theorem c2_roi_eff_exact (now : ℤ) (days : ℕ)
    (aiDraws rlDraws : ℕ → ℚ) (aiTrades rlTrades : ℕ → ℕ) :
    ∀ s ∈ generate_sample_performance_data now days aiDraws rlDraws
      aiTrades rlTrades,
      s.roi_eff = (s.balance_usdt - 10000) / 10000 * 100 := by
  intro s hs
  obtain ⟨k, -, h | h⟩ := mem_generate_sample_performance_data hs
  · rw [h.2.2, h.2.1]
  · rw [h.2.2, h.2.1]

/-- Witness for C2 at the all-zero draw streams. -/
theorem c2_roi_eff_exact_witness :
    (⟨0, .AI, 10000, 0, 0⟩ : PerformanceSample).roi_eff =
      ((⟨0, .AI, 10000, 0, 0⟩ : PerformanceSample).balance_usdt - 10000) /
        10000 * 100 :=
  c2_roi_eff_exact 0 0 (fun _ => 0) (fun _ => 0) (fun _ => 0) (fun _ => 0)
    ⟨0, .AI, 10000, 0, 0⟩
    (by simp [generate_sample_performance_data, balanceAt])

lemma length_pctChange (bs : List ℚ) :
    (pctChange bs).length = bs.length - 1 := by
  simp only [pctChange, List.length_zipWith, List.length_tail]
  omega

lemma sharpe_eq (xs : List ℚ) :
    sharpe xs = match stdO xs with
      | none => 0
      | some s => if 0 < s then (sampleMean xs : ℝ) / s else 0 := rfl

/-- C4: the VaR(5%) metric is present — with the value
`quantile05 returns * 100`, the 5th percentile of the step returns in
percent — exactly when the series yields more than 20 step-return
observations; with 20 or fewer it is absent (`none`), not zero and not a
sentinel. The step-return count is the balance-sample count minus one. -/
theorem c4_var_presence (bs : List ℚ) :
    (20 < (pctChange bs).length →
      value_at_risk (pctChange bs) =
        some (quantile05 (pctChange bs) * 100)) ∧
    ((pctChange bs).length ≤ 20 → value_at_risk (pctChange bs) = none) ∧
    (pctChange bs).length = bs.length - 1 := by
  refine ⟨fun h => ?_, fun h => ?_, length_pctChange bs⟩
  · rw [value_at_risk, if_pos h]
  · rw [value_at_risk, if_neg (by omega)]

/-- Witness for C4: 22 balance samples give 21 returns and a present VaR;
a single balance sample gives no returns and an absent VaR. -/
theorem c4_var_presence_witness :
    value_at_risk (pctChange (List.replicate 22 (1 : ℚ))) =
      some (quantile05 (pctChange (List.replicate 22 (1 : ℚ))) * 100) ∧
    value_at_risk (pctChange [(1 : ℚ)]) = none :=
  ⟨(c4_var_presence (List.replicate 22 1)).1 (by simp [length_pctChange]),
   (c4_var_presence [1]).2.1 (by simp [length_pctChange])⟩

lemma stdO_eq_none (xs : List ℚ) (h : xs.length < 2) : stdO xs = none := by
  rw [stdO, if_neg (by omega)]

lemma sharpe_eq_zero_of_short (xs : List ℚ) (h : xs.length < 2) :
    sharpe xs = 0 := by
  rw [sharpe_eq, stdO_eq_none xs h]

/-- C10: a series yielding fewer than two step-return observations makes the
pandas `std()` undefined (`NaN`, modelled as `none`); the strict `std > 0`
guard is false for `NaN`, so the Sharpe computation still returns exactly 0
rather than `NaN` or an error. -/
theorem c10_sharpe_total_on_short_series (bs : List ℚ)
    (h : (pctChange bs).length < 2) :
    stdO (pctChange bs) = none ∧ sharpe (pctChange bs) = 0 :=
  ⟨stdO_eq_none _ h, sharpe_eq_zero_of_short _ h⟩

lemma sum_of_const (xs : List ℚ) (c : ℚ) (h : ∀ x ∈ xs, x = c) :
    xs.sum = xs.length * c := by
  induction xs with
  | nil => simp
  | cons a l ih =>
    have ha := h a (List.mem_cons_self a l)
    have hl := ih (fun x hx => h x (List.mem_cons_of_mem a hx))
    simp only [List.sum_cons, List.length_cons, ha, hl]
    push_cast
    ring

lemma sampleMean_of_const (xs : List ℚ) (c : ℚ) (hne : xs ≠ [])
    (h : ∀ x ∈ xs, x = c) : sampleMean xs = c := by
  have hlen : (xs.length : ℚ) ≠ 0 := by
    have := List.length_pos.mpr hne
    positivity
  rw [sampleMean, sum_of_const xs c h, mul_comm, mul_div_assoc,
    div_self hlen, mul_one]

lemma sampleVar_of_const (xs : List ℚ) (c : ℚ) (h : ∀ x ∈ xs, x = c) :
    sampleVar xs = 0 := by
  rcases eq_or_ne xs [] with rfl | hne
  · simp [sampleVar]
  · have hmean := sampleMean_of_const xs c hne h
    have hzero : (xs.map (fun x => (x - sampleMean xs) ^ 2)).sum = 0 := by
      apply List.sum_eq_zero
      intro y hy
      obtain ⟨x, hx, rfl⟩ := List.mem_map.mp hy
      rw [hmean, h x hx, sub_self]
      ring
    rw [sampleVar, hzero, zero_div]

/-- C5: the Sharpe computation divides the mean of the step returns by their
standard deviation only under the strict guard `std > 0`; when the standard
deviation is 0 the result is exactly 0, and in particular a series whose step
returns are all identical gets Sharpe ratio 0 — the division by zero is never
performed. -/
theorem c5_sharpe_guard (xs : List ℚ) :
    (∀ s : ℝ, stdO xs = some s → 0 < s →
      sharpe xs = (sampleMean xs : ℝ) / s) ∧
    (∀ s : ℝ, stdO xs = some s → s = 0 → sharpe xs = 0) ∧
    (∀ c : ℚ, (∀ x ∈ xs, x = c) → sharpe xs = 0) := by
  refine ⟨fun s hs hpos => ?_, fun s hs h0 => ?_, fun c hc => ?_⟩
  · rw [sharpe_eq, hs]
    simp [hpos]
  · rw [sharpe_eq, hs, h0]
    simp
  · rcases h2 : stdO xs with - | s
    · rw [sharpe_eq, h2]
    · have hs0 : s = 0 := by
        rw [stdO] at h2
        by_cases hlen : 2 ≤ xs.length
        · rw [if_pos hlen] at h2
          have := Option.some.inj h2
          rw [← this, sampleVar_of_const xs c hc]
          simp
        · rw [if_neg hlen] at h2
          cases h2
      rw [sharpe_eq, h2, hs0]
      simp

/-- Witness for C5: the returns `[0, 1]` have positive standard deviation, so
the Sharpe ratio is the mean over the standard deviation there. -/
theorem c5_sharpe_guard_witness :
    sharpe [(0 : ℚ), 1] =
      ((sampleMean [(0 : ℚ), 1] : ℚ) : ℝ) / Real.sqrt (sampleVar [(0 : ℚ), 1]) :=
  (c5_sharpe_guard [0, 1]).1 _ (by rw [stdO, if_pos (by norm_num)])
    (Real.sqrt_pos.mpr (by norm_num [sampleVar, sampleMean]))

/-- Witness for C10 at the single-point balance series `[10000]`. -/
theorem c10_sharpe_total_witness :
    stdO (pctChange [(10000 : ℚ)]) = none ∧
    sharpe (pctChange [(10000 : ℚ)]) = 0 :=
  c10_sharpe_total_on_short_series [10000] (by simp [length_pctChange])

lemma length_runningMaxAux (bs : List ℚ) :
    ∀ m, (runningMaxAux m bs).length = bs.length := by
  induction bs with
  | nil => intro m; rfl
  | cons b rest ih => intro m; simp [runningMaxAux, ih]

lemma length_runningMax (bs : List ℚ) : (runningMax bs).length = bs.length := by
  cases bs with
  | nil => rfl
  | cons b rest => simp [runningMax, length_runningMaxAux]

lemma length_drawdownSeries (bs : List ℚ) :
    (drawdownSeries bs).length = bs.length := by
  simp [drawdownSeries, length_runningMax]

lemma le_foldl_max (l : List ℚ) : ∀ m : ℚ, m ≤ l.foldl max m := by
  induction l with
  | nil => intro m; simp
  | cons a l ih =>
    intro m
    exact le_trans (le_max_left m a) (by simpa using ih (max m a))

lemma foldl_max_of_mem (l : List ℚ) (x : ℚ) (hx : x ∈ l) :
    ∀ m : ℚ, x ≤ l.foldl max m := by
  induction l with
  | nil => cases hx
  | cons a l ih =>
    intro m
    rcases List.mem_cons.mp hx with rfl | hx2
    · exact le_trans (le_max_right m x) (le_foldl_max l (max m x))
    · exact ih hx2 (max m a)

lemma runningMaxAux_getD (bs : List ℚ) : ∀ (m : ℚ) (t : ℕ), t < bs.length →
    (runningMaxAux m bs).getD t 0 = (bs.take (t + 1)).foldl max m := by
  induction bs with
  | nil => intro m t h; simp at h
  | cons b rest ih =>
    intro m t ht
    cases t with
    | zero => simp [runningMaxAux]
    | succ t =>
      simp only [runningMaxAux, List.getD_cons_succ, List.take_succ_cons,
        List.foldl_cons]
      exact ih (max m b) t (by simpa using ht)

lemma runningMax_getD (bs : List ℚ) (t : ℕ) (ht : t < bs.length) :
    (runningMax bs).getD t 0 = prefixMax bs t := by
  cases bs with
  | nil => simp at ht
  | cons b rest =>
    cases t with
    | zero => simp [runningMax, prefixMax]
    | succ t =>
      have h := runningMaxAux_getD rest b t (by simpa using ht)
      simp only [runningMax, List.getD_cons_succ, prefixMax,
        List.take_succ_cons, List.foldl_cons, List.getD_cons_zero, max_self]
      exact h

lemma prefixMax_pos (bs : List ℚ) (hpos : ∀ b ∈ bs, 0 < b) (t : ℕ)
    (ht : t < bs.length) : 0 < prefixMax bs t := by
  have hlen : 0 < bs.length := by omega
  have hhead : bs.getD 0 0 ∈ bs := by
    rw [List.getD_eq_getElem bs 0 hlen]
    exact List.getElem_mem hlen
  exact lt_of_lt_of_le (hpos _ hhead) (le_foldl_max _ _)

lemma getD_le_prefixMax (bs : List ℚ) (t : ℕ) (ht : t < bs.length) :
    bs.getD t 0 ≤ prefixMax bs t := by
  have htake : t < (bs.take (t + 1)).length := by
    simp only [List.length_take]
    omega
  have hmem : bs.getD t 0 ∈ bs.take (t + 1) := by
    rw [List.getD_eq_getElem bs 0 ht]
    have h := (List.getElem_take bs (j := t + 1) (i := t) (h := htake))
    rw [← h]
    exact List.getElem_mem htake
  exact foldl_max_of_mem _ _ hmem _

lemma getD_zipWith (f : ℚ → ℚ → ℚ) : ∀ (as bs : List ℚ) (t : ℕ),
    t < as.length → t < bs.length →
    (List.zipWith f as bs).getD t 0 = f (as.getD t 0) (bs.getD t 0)
  | [], _, t, h1, _ => by simp at h1
  | _ :: _, [], t, _, h2 => by simp at h2
  | a :: as, b :: bs, 0, _, _ => by simp
  | a :: as, b :: bs, t + 1, h1, h2 => by
    simp only [List.zipWith_cons_cons, List.getD_cons_succ]
    exact getD_zipWith f as bs t (by simpa using h1) (by simpa using h2)

lemma drawdownSeries_getD (bs : List ℚ) (t : ℕ) (ht : t < bs.length) :
    (drawdownSeries bs).getD t 0 =
      (bs.getD t 0 - prefixMax bs t) / prefixMax bs t * 100 := by
  unfold drawdownSeries
  rw [getD_zipWith _ bs (runningMax bs) t ht
    (by rw [length_runningMax]; exact ht), runningMax_getD bs t ht]

/-- C3: for a balance series with all entries positive, the drawdown at every
index `t` equals `(balance[t] - runningMax(balance[0..t])) /
runningMax(balance[0..t]) * 100`, is nonpositive, and is zero exactly when the
balance is at its running maximum; on the series `[10000, 11000, 9000, 9500]`
the running maximum is `[10000, 11000, 11000, 11000]` and the drawdowns are
`[0, 0, -200/11, -150/11]` (≈ `[0, 0, -18.18, -13.64]`). -/
theorem c3_drawdown_spec :
    (∀ bs : List ℚ, (∀ b ∈ bs, 0 < b) → ∀ t, t < bs.length →
      (drawdownSeries bs).getD t 0 =
          (bs.getD t 0 - prefixMax bs t) / prefixMax bs t * 100 ∧
      (drawdownSeries bs).getD t 0 ≤ 0 ∧
      ((drawdownSeries bs).getD t 0 = 0 ↔ bs.getD t 0 = prefixMax bs t)) ∧
    runningMax [10000, 11000, 9000, 9500] = [10000, 11000, 11000, 11000] ∧
    drawdownSeries [10000, 11000, 9000, 9500] =
      [0, 0, -200 / 11, -150 / 11] := by
  refine ⟨fun bs hpos t ht => ?_, ?_, ?_⟩
  · have heq := drawdownSeries_getD bs t ht
    have hle := getD_le_prefixMax bs t ht
    have hp := prefixMax_pos bs hpos t ht
    refine ⟨heq, ?_, ?_⟩
    · rw [heq]
      have h1 : (bs.getD t 0 - prefixMax bs t) / prefixMax bs t ≤ 0 :=
        div_nonpos_iff.mpr (Or.inr ⟨by linarith, hp.le⟩)
      linarith
    · rw [heq]
      constructor
      · intro h0
        rcases mul_eq_zero.mp h0 with h | h
        · rcases div_eq_zero_iff.mp h with h | h
          · linarith
          · exact absurd h hp.ne'
        · norm_num at h
      · intro h0
        rw [h0]
        simp
  · norm_num [runningMax, runningMaxAux, max_def]
  · norm_num [drawdownSeries, runningMax, runningMaxAux, max_def]

/-- Witness for C3 at the one-point positive series `[2]`. -/
theorem c3_drawdown_spec_witness :
    (drawdownSeries [(2 : ℚ)]).getD 0 0 ≤ 0 :=
  (c3_drawdown_spec.1 [2] (by norm_num) 0 (by norm_num)).2.1

/-- C9 counterexample: the claim says a single-point input series yields empty
outputs for all fields, but on `[10000]` the drawdown series computed by the
code is `[0]` — it has length 1, not 0, so it is not empty (and the Sharpe
field is the number 0, not an absent value). -/
theorem c9_counterexample :
    (riskMetrics [(10000 : ℚ)]).drawdown = [0] ∧
    (riskMetrics [(10000 : ℚ)]).drawdown.length = 1 := by
  have h : (riskMetrics [(10000 : ℚ)]).drawdown = [0] := by
    show drawdownSeries [(10000 : ℚ)] = [0]
    norm_num [drawdownSeries, runningMax, runningMaxAux]
  exact ⟨h, by rw [h]; rfl⟩

/-- C9 (amended): the risk-metrics computation never fails on short input: an
empty series yields the empty or absent value for every field, and a
single-point series yields an empty return list — volatility undefined
(`NaN`, absent), Sharpe ratio 0, VaR absent — and the one-point drawdown
series `[0]`. -/
theorem c9_empty_and_single_point :
    riskMetrics [] = ⟨none, 0, none, []⟩ ∧
    ∀ b : ℚ, riskMetrics [b] = ⟨none, 0, none, [0]⟩ := by
  refine ⟨?_, fun b => ?_⟩
  · unfold riskMetrics
    have h0 : pctChange [] = [] := rfl
    simp only [h0, RiskMetrics.mk.injEq]
    refine ⟨?_, ?_, ?_, rfl⟩
    · rw [volatilityO, stdO_eq_none _ (by norm_num)]
      rfl
    · exact sharpe_eq_zero_of_short _ (by norm_num)
    · rw [value_at_risk, if_neg (by norm_num)]
  · unfold riskMetrics
    have h1 : pctChange [b] = [] := rfl
    simp only [h1, RiskMetrics.mk.injEq]
    refine ⟨?_, ?_, ?_, ?_⟩
    · rw [volatilityO, stdO_eq_none _ (by norm_num)]
      rfl
    · exact sharpe_eq_zero_of_short _ (by norm_num)
    · rw [value_at_risk, if_neg (by norm_num)]
    · show drawdownSeries [b] = [0]
      simp [drawdownSeries, runningMax, runningMaxAux]

lemma filter_flatMap_pair (l : List ℕ) (fA fR : ℕ → PerformanceSample)
    (hA : ∀ k, (fA k).agent = .AI) (hR : ∀ k, (fR k).agent = .RL) :
    (l.flatMap (fun k => [fA k, fR k])).filter
        (fun s => decide (s.agent = Agent.AI)) = l.map fA ∧
    (l.flatMap (fun k => [fA k, fR k])).filter
        (fun s => decide (s.agent = Agent.RL)) = l.map fR := by
  induction l with
  | nil => simp
  | cons k rest ih =>
    constructor <;>
      simp [List.flatMap_cons, List.filter_append, List.filter_cons, hA, hR,
        ih.1, ih.2]

lemma agentRows_generate (now : ℤ) (days : ℕ) (aiDraws rlDraws : ℕ → ℚ)
    (aiTrades rlTrades : ℕ → ℕ) :
    agentRows .AI (generate_sample_performance_data now days aiDraws rlDraws
        aiTrades rlTrades) =
      (List.range (24 * days + 1)).map (fun k : ℕ =>
        ({ timestamp := now - 24 * days + (k : ℤ), agent := .AI,
           balance_usdt := balanceAt aiDraws k,
           roi_eff := (balanceAt aiDraws k - 10000) / 10000 * 100,
           trade_count := aiTrades k } : PerformanceSample)) ∧
    agentRows .RL (generate_sample_performance_data now days aiDraws rlDraws
        aiTrades rlTrades) =
      (List.range (24 * days + 1)).map (fun k : ℕ =>
        ({ timestamp := now - 24 * days + (k : ℤ), agent := .RL,
           balance_usdt := balanceAt rlDraws k,
           roi_eff := (balanceAt rlDraws k - 10000) / 10000 * 100,
           trade_count := rlTrades k } : PerformanceSample)) := by
  unfold agentRows generate_sample_performance_data
  exact filter_flatMap_pair _ _ _ (fun k => rfl) (fun k => rfl)

/-- C8: for a 30-day window the generator produces, for each agent, exactly
`30*24 + 1 = 721` samples on the shared hourly timestamp grid, strictly
ascending, starting at `now − 720` hours (= now − 30 days) and ending at
`now`. -/
theorem c8_thirty_day_grid (now : ℤ) (aiDraws rlDraws : ℕ → ℚ)
    (aiTrades rlTrades : ℕ → ℕ) :
    (agentRows .AI (generate_sample_performance_data now 30 aiDraws rlDraws
      aiTrades rlTrades)).length = 30 * 24 + 1 ∧
    (agentRows .RL (generate_sample_performance_data now 30 aiDraws rlDraws
      aiTrades rlTrades)).length = 30 * 24 + 1 ∧
    (agentRows .AI (generate_sample_performance_data now 30 aiDraws rlDraws
        aiTrades rlTrades)).map PerformanceSample.timestamp =
      (List.range 721).map (fun k : ℕ => now - 720 + (k : ℤ)) ∧
    (agentRows .RL (generate_sample_performance_data now 30 aiDraws rlDraws
        aiTrades rlTrades)).map PerformanceSample.timestamp =
      (agentRows .AI (generate_sample_performance_data now 30 aiDraws rlDraws
        aiTrades rlTrades)).map PerformanceSample.timestamp ∧
    ((agentRows .AI (generate_sample_performance_data now 30 aiDraws rlDraws
        aiTrades rlTrades)).map PerformanceSample.timestamp).Pairwise
      (· < ·) ∧
    ((agentRows .AI (generate_sample_performance_data now 30 aiDraws rlDraws
        aiTrades rlTrades)).map PerformanceSample.timestamp).head? =
      some (now - 720) ∧
    ((agentRows .AI (generate_sample_performance_data now 30 aiDraws rlDraws
        aiTrades rlTrades)).map PerformanceSample.timestamp).getLast? =
      some now := by
  obtain ⟨hAI, hRL⟩ :=
    agentRows_generate now 30 aiDraws rlDraws aiTrades rlTrades
  have h721 : 24 * 30 + 1 = 721 := by norm_num
  have htsAI : (agentRows .AI (generate_sample_performance_data now 30 aiDraws
      rlDraws aiTrades rlTrades)).map PerformanceSample.timestamp =
      (List.range 721).map (fun k : ℕ => now - 720 + (k : ℤ)) := by
    rw [hAI, List.map_map, h721]
    apply List.map_congr_left
    intro k hk
    show now - 24 * ((30 : ℕ) : ℤ) + (k : ℤ) = now - 720 + (k : ℤ)
    norm_num
  have htsRL : (agentRows .RL (generate_sample_performance_data now 30 aiDraws
      rlDraws aiTrades rlTrades)).map PerformanceSample.timestamp =
      (List.range 721).map (fun k : ℕ => now - 720 + (k : ℤ)) := by
    rw [hRL, List.map_map, h721]
    apply List.map_congr_left
    intro k hk
    show now - 24 * ((30 : ℕ) : ℤ) + (k : ℤ) = now - 720 + (k : ℤ)
    norm_num
  refine ⟨?_, ?_, htsAI, by rw [htsAI, htsRL], ?_, ?_, ?_⟩
  · rw [hAI]
    simp [List.length_map, List.length_range]
  · rw [hRL]
    simp [List.length_map, List.length_range]
  · rw [htsAI, List.pairwise_map]
    refine (List.pairwise_lt_range 721).imp ?_
    intro a b h
    have h2 : a < b := h
    show now - 720 + (a : ℤ) < now - 720 + (b : ℤ)
    omega
  · rw [htsAI, show (721 : ℕ) = 720 + 1 from rfl, List.range_succ_eq_map]
    simp
  · rw [htsAI, show (721 : ℕ) = 720 + 1 from rfl, List.range_succ,
      List.map_append]
    simp

lemma fetchScan_eq (f : Coin → FetchOutcome) (l : List Coin) :
    fetchScan f l = if l.any (raisesAt f) then .error ()
      else .ok ((l.filter (liveAt f)).map (fun c => (c, livePoint f c))) := by
  induction l with
  | nil => simp [fetchScan]
  | cons c rest ih =>
    rcases hf : f c with - | r
    · simp [fetchScan, raisesAt, hf]
    · by_cases hsc : r.status_code = 200
      · rcases hd : r.data? with - | e
        · simp [fetchScan, raisesAt, liveAt, hf, hsc, hd, ih]
        · rcases hu : e.usd? with - | p
          · simp [fetchScan, raisesAt, hf, hsc, hd, hu]
          · by_cases hany : rest.any (raisesAt f) = true
            · simp [fetchScan, raisesAt, liveAt, hf, hsc, hd, hu, hany, ih]
            · simp [fetchScan, raisesAt, liveAt, livePoint, hf, hsc, hd, hu,
                hany, ih]
      · simp [fetchScan, raisesAt, liveAt, hf, hsc, ih]

/-- C6 (amended): the fallback to the synthetic snapshot is all-or-nothing at
the batch level, but only a raised exception — network error, timeout,
malformed body, or a missing `usd` price field — triggers it; a non-200
status, or an instrument absent from its response body, merely omits that
instrument, so the result can be a partial mapping of the live
instruments. -/
theorem c6_fallback_policy (f : Coin → FetchOutcome) (u chg : Coin → ℚ) :
    load_market_data f u chg =
      if coinList.any (raisesAt f) then generate_sample_market_data u chg
      else (coinList.filter (liveAt f)).map (fun c => (c, livePoint f c)) := by
  unfold load_market_data
  rw [fetchScan_eq f coinList]
  by_cases h : coinList.any (raisesAt f) = true <;> simp [h]

/-- C6 counterexample: with a non-200 status for bitcoin and live responses
for the other four instruments, `load_market_data` returns the partial
four-instrument live mapping (length 4) — not the five-instrument synthetic
snapshot — contradicting the claim that any failure for any instrument
replaces the entire result with synthetic data and that no partial mapping is
ever returned. -/
theorem c6_counterexample :
    load_market_data fetchDemo (fun _ => 1) (fun _ => 0) =
      [(.ethereum, ⟨7, 1⟩), (.binancecoin, ⟨7, 1⟩), (.cardano, ⟨7, 1⟩),
        (.solana, ⟨7, 1⟩)] ∧
    (load_market_data fetchDemo (fun _ => 1) (fun _ => 0)).length = 4 ∧
    (generate_sample_market_data (fun _ => 1) (fun _ => 0)).length = 5 :=
  ⟨by decide, by decide, rfl⟩

/-- C7: when the live fetch raises for every instrument, the result is the
synthetic snapshot: exactly one PricePoint per requested instrument in list
order, each with price in `[0.95, 1.05]` times its base price and 24h change
in `[-10, 10]`, given draws from those uniform ranges. -/
theorem c7_synthetic_snapshot (u chg : Coin → ℚ)
    (hu : ∀ c, 19 / 20 ≤ u c ∧ u c ≤ 21 / 20)
    (hchg : ∀ c, -10 ≤ chg c ∧ chg c ≤ 10) :
    load_market_data (fun _ => .exn) u chg = generate_sample_market_data u chg ∧
    (generate_sample_market_data u chg).map Prod.fst = coinList ∧
    coinList.Nodup ∧
    ∀ c p, (c, p) ∈ generate_sample_market_data u chg →
      19 / 20 * basePrice c ≤ p.price ∧ p.price ≤ 21 / 20 * basePrice c ∧
      -10 ≤ p.change_24h ∧ p.change_24h ≤ 10 := by
  refine ⟨rfl, rfl, by decide, fun c p hmem => ?_⟩
  obtain ⟨c', hc', heq⟩ := List.mem_map.mp hmem
  injection heq with h1 h2
  subst h1
  subst h2
  have hb : 0 < basePrice c' := by cases c' <;> norm_num [basePrice]
  refine ⟨?_, ?_, (hchg c').1, (hchg c').2⟩
  · show 19 / 20 * basePrice c' ≤ basePrice c' * u c'
    nlinarith [(hu c').1]
  · show basePrice c' * u c' ≤ 21 / 20 * basePrice c'
    nlinarith [(hu c').2]

/-- Witness for C7 at the draws `u = 1`, `chg = 0`. -/
theorem c7_synthetic_snapshot_witness :
    load_market_data (fun _ => .exn) (fun _ => 1) (fun _ => 0) =
      generate_sample_market_data (fun _ => 1) (fun _ => 0) :=
  (c7_synthetic_snapshot (fun _ => 1) (fun _ => 0)
    (fun c => by norm_num) (fun c => by norm_num)).1

end OracleDash
